import Mathlib

/-!
# Verification of the chatgpt-project-indexer enumeration engine

Shallow embedding of the core logic of the `chatgpt-project-indexer`
repository, together with proofs about the claims of its specification.

The embedding covers:
* the auth-state detector and recovery flow (`src/auth/detector.ts`,
  `src/auth/recovery.ts`),
* the scroll-stability loops (`src/scraper/scroller.ts`,
  `src/scraper/navigator.ts`),
* popup extraction and identifier parsing (`src/scraper/extractor.ts`),
* the local JSON writer (`src/storage/writer.ts`),
* the atomic run lifecycle of the Supabase backend
  (`src/storage/supabase.ts` and the `safe_cleanup_old_runs` /
  `promote_run_to_current` SQL functions of the migrations).

Conventions: timestamps are modelled as `Nat` milliseconds; DOM / network
round-trips are modelled by oracle values (a `Bool` outcome per fallible
call, or a function from elapsed time to an observed page view); JavaScript
string lengths are modelled by `String.length` (code points rather than
UTF-16 units, which agrees on all inputs used here); exceptions become
`Except`.
-/

namespace Indexer

/-! ## Basic data model (src/types/index.ts) -/

/-- The `AuthState` enum from `src/types/index.ts`. -/
inductive AuthState
  | authenticated
  | login_required
  | session_expired
  | unknown
deriving DecidableEq

/-- The `ProjectRecord` type from `src/types/index.ts`, including the optional
pin/icon fields used by `ProjectWriter.addProject`. -/
structure ProjectRecord where
  id : String
  title : String
  firstSeenAt : String
  lastConfirmedAt : String
  pinned : Option Bool
  pinnedAt : Option String
  iconColor : Option String
  iconEmoji : Option String
deriving DecidableEq

/-! ## Character classes and literal matching used by the extractor regexes -/

/-- Character class `[a-zA-Z0-9_-]` of the href-id regexes. -/
def isIdChar (c : Char) : Bool :=
  c.isAlpha || c.isDigit || c = '_' || c = '-'

/-- Character class `[a-z0-9]` of the slug regex. -/
def isSlugChar (c : Char) : Bool :=
  c.isLower || c.isDigit

/-- If `l` starts with the literal `pat`, return the remainder, else `none`. -/
def dropLit : List Char → List Char → Option (List Char)
  | [], l => some l
  | _ :: _, [] => none
  | p :: ps, c :: cs => if c = p then dropLit ps cs else none

/-- JavaScript `String.prototype.includes`: does `pat` occur in `l`? -/
def listHasSub (pat : List Char) : List Char → Bool
  | [] => decide (pat = [])
  | c :: cs => (dropLit pat (c :: cs)).isSome || listHasSub pat cs

/-- Substring test `url.includes(pattern)` on strings. -/
def strInc (s pat : String) : Bool :=
  listHasSub pat.data s.data

/-! ## Identifier parsing (src/scraper/extractor.ts, `extractIdFromHref`)

The two regexes are `\/g\/(g-p-[a-zA-Z0-9_-]+)\/project` and the fallback
`\/g\/([a-zA-Z0-9_-]+)`.  Because `/` is not in the bracketed class, the
greedy `+` never backtracks productively, so each regex is equivalent to
"maximal class run, then the following literal", tried at each start
position from the left. -/

/-- Try `\/g\/(g-p-[a-zA-Z0-9_-]+)\/project` anchored at the head of `l`;
returns the captured group. -/
def matchProjectAt (l : List Char) : Option (List Char) :=
  match dropLit "/g/g-p-".data l with
  | none => none
  | some r =>
    let run := r.takeWhile isIdChar
    let rest := r.dropWhile isIdChar
    if run = [] then none
    else
      match dropLit "/project".data rest with
      | none => none
      | some _ => some ("g-p-".data ++ run)

/-- Leftmost match of the project-href pattern. -/
def searchProject : List Char → Option (List Char)
  | [] => none
  | c :: cs =>
    match matchProjectAt (c :: cs) with
    | some cap => some cap
    | none => searchProject cs

/-- Try `\/g\/([a-zA-Z0-9_-]+)` anchored at the head of `l`. -/
def matchGAt (l : List Char) : Option (List Char) :=
  match dropLit "/g/".data l with
  | none => none
  | some r =>
    let run := r.takeWhile isIdChar
    if run = [] then none else some run

/-- Leftmost match of the fallback `/g/{id}` pattern. -/
def searchG : List Char → Option (List Char)
  | [] => none
  | c :: cs =>
    match matchGAt (c :: cs) with
    | some cap => some cap
    | none => searchG cs

/-- Model of `extractIdFromHref` from `src/scraper/extractor.ts`. -/
def extractIdFromHref (href : Option String) : Option String :=
  match href with
  | none => none
  | some h =>
    match searchProject h.data with
    | some cap => some (String.mk cap)
    | none =>
      match searchG h.data with
      | some cap => some (String.mk cap)
      | none => none

/-! ## Slug fallback and title selection (src/scraper/extractor.ts) -/

/-- The capture of `id.match(/g-p-[a-z0-9]+-(.+)$/)` anchored at the head of
`l`.  `.` does not match a newline, and `$` only matches at the very end, so
`(.+)$` is "the nonempty, newline-free remainder". -/
def matchSlugAt (l : List Char) : Option (List Char) :=
  match dropLit "g-p-".data l with
  | none => none
  | some r =>
    let run := r.takeWhile isSlugChar
    let rest := r.dropWhile isSlugChar
    if run = [] then none
    else
      match rest with
      | '-' :: tail =>
        if tail ≠ [] ∧ tail.all (fun c => decide (c ≠ '\n')) then some tail else none
      | _ => none

/-- Leftmost match of the slug pattern. -/
def searchSlug : List Char → Option (List Char)
  | [] => none
  | c :: cs =>
    match matchSlugAt (c :: cs) with
    | some cap => some cap
    | none => searchSlug cs

/-- The captured slug of an id, if the slug regex matches. -/
def slugCapture (id : String) : Option String :=
  (searchSlug id.data).map String.mk

/-- Replacement of every dash by a space, as in the slug fallback. -/
def dashesToSpaces (s : String) : String :=
  s.map (fun c => if c = '-' then ' ' else c)

/-- JavaScript truthiness-plus-length guard `s && s.length < 200`
for a plain string value. -/
def usableStr (s : String) : Bool :=
  decide (s ≠ "") && decide (s.length < 200)

/-- The same guard for a `string | null` value. -/
def usableOpt : Option String → Bool
  | none => false
  | some t => usableStr t

/-- Title selection of `extractProjectsFromPopup`
(`src/scraper/extractor.ts` lines 48-57):
priority innerText, then title attribute, then slug fallback, else the id. -/
def chooseTitlePopup (innerText : String) (titleAttr : Option String)
    (id : String) : String :=
  if usableStr innerText then innerText
  else if usableOpt titleAttr then titleAttr.getD ""
  else
    match slugCapture id with
    | some cap => dashesToSpaces cap
    | none => id

/-- Title selection of `extractProjectData`
(`src/scraper/extractor.ts` lines 175-188):
priority tooltip, then title attribute, then innerText, then slug fallback,
else `innerTextTitle || ''`. -/
def chooseTitleData (fullTitle titleAttr innerTextTitle : Option String)
    (id : String) : String :=
  if usableOpt fullTitle then fullTitle.getD ""
  else if usableOpt titleAttr then titleAttr.getD ""
  else if usableOpt innerTextTitle then innerTextTitle.getD ""
  else
    match slugCapture id with
    | some cap => dashesToSpaces cap
    | none => innerTextTitle.getD ""

/-! ## Popup extraction loop (src/scraper/extractor.ts, `extractProjectsFromPopup`) -/

/-- Per-item outcome of the page interactions inside the loop body: either
some call throws (caught by the per-item `catch`), or the item yields its
`href` attribute, `innerText` (already trimmed, `''` when absent) and
`title` attribute. -/
inductive ItemFetch
  | throws
  | ok (href : Option String) (innerText : String) (titleAttr : Option String)
deriving DecidableEq

/-- Counters returned by the extraction loops. -/
structure ExtractStats where
  extracted : Nat
  failed : Nat
deriving DecidableEq

/-- The loop of `extractProjectsFromPopup`: walk the located items in
order; a throwing item or an unparseable identifier increments `failed`
and continues, otherwise a `ProjectRecord` is emitted and `extracted`
increments.  `now` is the shared `new Date().toISOString()` value. -/
def extractProjectsFromPopup (now : String) :
    List ItemFetch → ExtractStats × List ProjectRecord
  | [] => (⟨0, 0⟩, [])
  | item :: rest =>
    let r := extractProjectsFromPopup now rest
    match item with
    | .throws => (⟨r.1.extracted, r.1.failed + 1⟩, r.2)
    | .ok href innerText titleAttr =>
      match extractIdFromHref href with
      | none => (⟨r.1.extracted, r.1.failed + 1⟩, r.2)
      | some id =>
        let title := (chooseTitlePopup innerText titleAttr id).trim
        (⟨r.1.extracted + 1, r.1.failed⟩,
          ⟨id, title, now, now, none, none, none, none⟩ :: r.2)

/-! ## Scroll-stability loops (src/scraper/scroller.ts, src/scraper/navigator.ts) -/

/-- Configured constants from `src/config/constants.ts`. -/
def STABILITY_THRESHOLD : Nat := 5

/-- Exit data of the unbounded scroll loop: the number of count
observations consumed and the returned final count. -/
structure ScrollExit where
  iterations : Nat
  finalCount : Nat
deriving DecidableEq

/-- The `while (stableIterations < stabilityThreshold)` loop of
`scrollUntilExhausted` (`src/scraper/scroller.ts` lines 35-72), driven by a
finite simulated sequence of per-iteration item counts.  Each iteration
observes the next count; `stableIterations` resets to 0 when the count
changed and increments otherwise.  Returns `none` when the simulated
sequence is exhausted while the loop is still running. -/
def scrollObserveLoop (stabilityThreshold : Nat) :
    List Nat → Nat → Nat → Nat → Option ScrollExit
  | counts, iteration, previousCount, stableIterations =>
    if stabilityThreshold ≤ stableIterations then
      some ⟨iteration, previousCount⟩
    else
      match counts with
      | [] => none
      | currentCount :: rest =>
        let newItems : Int := (currentCount : Int) - (previousCount : Int)
        let stable' := if newItems = 0 then stableIterations + 1 else 0
        scrollObserveLoop stabilityThreshold rest (iteration + 1) currentCount stable'

/-- Model of `scrollUntilExhausted` from `src/scraper/scroller.ts` (lines 35-72):
`previousCount` starts at 0 and the loop runs until stability. -/
def scrollUntilExhausted (counts : List Nat) (stabilityThreshold : Nat) :
    Option ScrollExit :=
  scrollObserveLoop stabilityThreshold counts 0 0 0

/-- Mutable state of the ceiling-bounded scroll loops. -/
structure ScrollState where
  scrollAttempts : Nat
  previousCount : Nat
  stableIterations : Nat
deriving DecidableEq

/-- One loop body of the bounded loops: increment `scrollAttempts`, observe
the count for this attempt, and update the stability counter. -/
def scrollStep (counts : Nat → Nat) (s : ScrollState) : ScrollState :=
  let attempts := s.scrollAttempts + 1
  let currentCount := counts attempts
  let newItems : Int := (currentCount : Int) - (s.previousCount : Int)
  let stable' := if newItems = 0 then s.stableIterations + 1 else 0
  ⟨attempts, currentCount, stable'⟩

/-- The `while (stableIterations < stabilityThreshold && scrollAttempts <
maxScrollAttempts)` loop shared by `scrollPopupUntilExhausted`
(`src/scraper/navigator.ts` lines 228-307, threshold 10, ceiling 500) and the
ceiling-guarded `scrollUntilExhausted` variant (threshold 5, ceiling 100).
`counts` maps an attempt number to the item count observed there. -/
def scrollLoopBounded (counts : Nat → Nat) (stabilityThreshold maxScrollAttempts : Nat)
    (s : ScrollState) : ScrollState :=
  if h : s.stableIterations < stabilityThreshold ∧ s.scrollAttempts < maxScrollAttempts then
    scrollLoopBounded counts stabilityThreshold maxScrollAttempts (scrollStep counts s)
  else s
termination_by maxScrollAttempts - s.scrollAttempts
decreasing_by
  simp [scrollStep]
  omega

/-- Model of `scrollPopupUntilExhausted` from `src/scraper/navigator.ts`: read the
initial count (attempt 0); a zero initial count returns 0 at once; a missing
bounding box returns the initial count; otherwise run the bounded loop and
return the last observed count. -/
def scrollPopupUntilExhausted (counts : Nat → Nat) (boxFound : Bool) : Nat :=
  let initialCount := counts 0
  if initialCount = 0 then 0
  else if ¬boxFound then initialCount
  else (scrollLoopBounded counts 10 500 ⟨0, initialCount, 0⟩).previousCount

/-- The ceiling-guarded sidebar variant of `scrollUntilExhausted`
(threshold `STABILITY_THRESHOLD = 5`, ceiling 100). -/
def scrollUntilExhaustedWithCeiling (counts : Nat → Nat) : Nat :=
  let initialCount := counts 0
  if initialCount = 0 then 0
  else (scrollLoopBounded counts STABILITY_THRESHOLD 100 ⟨0, initialCount, 0⟩).previousCount

/-! ## Local JSON writer (src/storage/writer.ts) -/

/-- Lookup in a JavaScript `Map` keyed by `id`, represented as an ordered
association list. -/
def bufGet (buffer : List (String × ProjectRecord)) (k : String) :
    Option ProjectRecord :=
  match buffer.find? (fun e => decide (e.1 = k)) with
  | some e => some e.2
  | none => none

/-- JavaScript `Map.set`: replace in place if the key exists, else append. -/
def bufSet (buffer : List (String × ProjectRecord)) (k : String)
    (v : ProjectRecord) : List (String × ProjectRecord) :=
  if buffer.any (fun e => decide (e.1 = k)) then
    buffer.map (fun e => if e.1 = k then (k, v) else e)
  else buffer ++ [(k, v)]

/-- The merge of `ProjectWriter.addProject` for an existing record
(`src/storage/writer.ts` lines 56-68): keep the original `firstSeenAt`,
take `title`/`lastConfirmedAt` from the update, and preserve pin/icon
state unless the update provides it. -/
def mergeExisting (existing incoming : ProjectRecord) : ProjectRecord :=
  { incoming with
    firstSeenAt := existing.firstSeenAt
    pinned := match incoming.pinned with
      | some v => some v
      | none => existing.pinned
    pinnedAt := match incoming.pinnedAt with
      | some v => some v
      | none => existing.pinnedAt
    iconColor := match incoming.iconColor with
      | some v => some v
      | none => existing.iconColor
    iconEmoji := match incoming.iconEmoji with
      | some v => some v
      | none => existing.iconEmoji }

/-- Model of `ProjectWriter.addProject` (`src/storage/writer.ts` lines 53-75). -/
def addProject (buffer : List (String × ProjectRecord))
    (project : ProjectRecord) : List (String × ProjectRecord) :=
  match bufGet buffer project.id with
  | some existing => bufSet buffer project.id (mergeExisting existing project)
  | none => bufSet buffer project.id project

/-! ## Supabase backend (src/storage/supabase.ts and the SQL migrations)

Database tables are lists of rows; every fallible network round-trip is
given a `Bool` oracle saying whether it succeeds. -/

/-- Constant `KEEP_RUNS` from `src/config/constants.ts` (`CONFIG.STORAGE.KEEP_RUNS`). -/
def KEEP_RUNS : Nat := 3

/-- Length of the SQL interval of seven days, in milliseconds. -/
def SEVEN_DAYS_MS : Nat := 604800000

/-- Run status values of the `runs` table. -/
inductive RunStatus
  | running
  | completed
  | failed
deriving DecidableEq

/-- A row of the `runs` table. -/
structure RunRow where
  id : Nat
  startedAt : Nat
  completedAt : Option Nat
  status : RunStatus
  projectsFound : Nat
  projectsExtracted : Nat
deriving DecidableEq

/-- A row of the `projects` table (the columns the run lifecycle touches). -/
structure ProjectRow where
  id : String
  title : String
  firstSeenAt : String
  lastConfirmedAt : String
  runId : Option Nat
  lastConfirmedRunId : Option Nat
deriving DecidableEq

/-- In-memory and durable state of a `SupabaseWriter`. -/
structure SupabaseState where
  buffer : List (String × ProjectRecord)
  currentRunId : Option Nat
  flushSucceeded : Bool
  flushAttempted : Bool
  runs : List RunRow
  projects : List ProjectRow
deriving DecidableEq

/-- Model of `toSupabaseRow`: both `run_id` and `last_confirmed_run_id` are set to the
current run. -/
def toSupabaseRow (runId : Option Nat) (p : ProjectRecord) : ProjectRow :=
  ⟨p.id, p.title, p.firstSeenAt, p.lastConfirmedAt, runId, runId⟩

/-- Upsert one row with `onConflict: 'id'`: replace the conflicting row in
place, else append. -/
def upsertRow (cur : List ProjectRow) (r : ProjectRow) : List ProjectRow :=
  if cur.any (fun p => decide (p.id = r.id)) then
    cur.map (fun p => if p.id = r.id then r else p)
  else cur ++ [r]

/-- Upsert a batch of rows in order. -/
def upsertRows (cur rows : List ProjectRow) : List ProjectRow :=
  rows.foldl upsertRow cur

/-- Model of `SupabaseWriter.flush` with upsert outcome `upsertOk`: an empty buffer
counts as success; otherwise the attempt is recorded, and on success the
buffered records are upserted (tagged with the current run) and the buffer
cleared, while on failure the buffer is kept for retry. -/
def flush (upsertOk : Bool) (s : SupabaseState) : SupabaseState :=
  if s.buffer = [] then { s with flushSucceeded := true }
  else if upsertOk then
    { s with
      projects := upsertRows s.projects
        (s.buffer.map (fun e => toSupabaseRow s.currentRunId e.2))
      buffer := []
      flushSucceeded := true
      flushAttempted := true }
  else { s with flushSucceeded := false, flushAttempted := true }

/-- Model of `SupabaseWriter.addProject`: buffer the record and remember its id. -/
def addProjectSupabase (s : SupabaseState) (p : ProjectRecord) : SupabaseState :=
  { s with buffer := bufSet s.buffer p.id p }

/-- Model of `SupabaseWriter.failRun` at time `now`: flush best-effort when the buffer
is nonempty (failure is swallowed), then mark the current run `failed` and
clear the current-run pointer.  No cleanup happens here. -/
def failRun (failFlushOk : Bool) (now : Nat) (s : SupabaseState) : SupabaseState :=
  match s.currentRunId with
  | none => s
  | some rid =>
    let s1 := if 0 < s.buffer.length then flush failFlushOk s else s
    { s1 with
      runs := s1.runs.map (fun r =>
        if r.id = rid then { r with status := .failed, completedAt := some now } else r)
      currentRunId := none }

/-- Comparison used by `ORDER BY completed_at DESC` (`NULLS FIRST` is the
PostgreSQL default for descending order): `a` sorts no later than `b`. -/
def completedDescLE (a b : Option Nat) : Bool :=
  match a, b with
  | none, _ => true
  | some _, none => false
  | some x, some y => decide (y ≤ x)

/-- The completed runs, most recently completed first. -/
def completedDesc (runs : List RunRow) : List RunRow :=
  (runs.filter (fun r => decide (r.status = .completed))).mergeSort
    (fun a b => completedDescLE a.completedAt b.completedAt)

/-- Model of `SupabaseWriter.legacyCleanupOldRuns` (`src/storage/supabase.ts` lines
313-361): keep the `KEEP_RUNS` most recently completed runs; delete the
remaining completed runs, and delete exactly the projects whose
`last_confirmed_run_id` is among the deleted run ids (a `NULL`
`last_confirmed_run_id` never matches the `IN` list). -/
def legacyCleanupOldRuns (runs : List RunRow) (projects : List ProjectRow) :
    List RunRow × List ProjectRow :=
  let runsToDelete := (completedDesc runs).drop KEEP_RUNS
  if runsToDelete = [] then (runs, projects)
  else
    let idsToDelete : List Nat := runsToDelete.map (fun r => r.id)
    let projects' := projects.filter (fun p =>
      match p.lastConfirmedRunId with
      | none => true
      | some rid => decide (rid ∉ idsToDelete))
    let runs' := runs.filter (fun r => decide (r.id ∉ idsToDelete))
    (runs', projects')

/-- The `safe_cleanup_old_runs` SQL function of migration
`20260115160000_add_atomic_run_support.sql`: no-op unless at least
`KEEP_RUNS` completed runs exist; otherwise delete projects whose non-null
`last_confirmed_run_id` is not among the kept run ids, delete completed runs
not among the kept ids, and delete failed runs started more than seven days
before `now`. -/
def sqlSafeCleanup (now : Nat) (s : SupabaseState) : SupabaseState :=
  let kept := (completedDesc s.runs).take KEEP_RUNS
  if kept.length < KEEP_RUNS then s
  else
    let keptIds : List Nat := kept.map (fun r => r.id)
    let projects' := s.projects.filter (fun p =>
      match p.lastConfirmedRunId with
      | none => true
      | some rid => decide (rid ∈ keptIds))
    let runs1 := s.runs.filter (fun r =>
      decide (r.status ≠ RunStatus.completed) || decide (r.id ∈ keptIds))
    let runs2 := runs1.filter (fun r =>
      decide (¬(r.status = .failed ∧ r.startedAt + SEVEN_DAYS_MS < now)))
    { s with runs := runs2, projects := projects' }

/-- The oracle outcomes of the round-trips made by `completeRun`. -/
structure CompleteOracle where
  finalFlushOk : Bool
  failFlushOk : Bool
  promoteRpcOk : Bool
  directUpdateOk : Bool
  statsUpdateOk : Bool
  cleanupRpcOk : Bool
  cleanupQueriesOk : Bool
  now : Nat
deriving DecidableEq

/-- Pass-level storage errors. -/
inductive StorageError
  | completeRunFailed
deriving DecidableEq

/-- Model of `SupabaseWriter.safeCleanupOldRuns`: all errors are caught, so when the
underlying queries fail nothing changes; otherwise either the
`safe_cleanup_old_runs` RPC runs or the legacy fallback does. -/
def safeCleanupOldRuns (o : CompleteOracle) (s : SupabaseState) : SupabaseState :=
  if ¬o.cleanupQueriesOk then s
  else if o.cleanupRpcOk then sqlSafeCleanup o.now s
  else
    let rp := legacyCleanupOldRuns s.runs s.projects
    { s with runs := rp.1, projects := rp.2 }

/-- Model of `SupabaseWriter.completeRun` (`src/storage/supabase.ts` lines 187-240).
Returns the new state and whether retention cleanup was invoked; the
`.error` case models the thrown `Failed to complete run` exception (both
the `promote_run_to_current` RPC and the fallback update failed). -/
def completeRun (o : CompleteOracle) (found extracted : Nat) (s : SupabaseState) :
    Except StorageError (SupabaseState × Bool) :=
  match s.currentRunId with
  | none => .ok (s, false)
  | some rid =>
    let s1 := flush o.finalFlushOk s
    if ¬s1.flushSucceeded ∧ s1.flushAttempted then
      .ok (failRun o.failFlushOk o.now s1, false)
    else if o.promoteRpcOk then
      let runs1 := s1.runs.map (fun r =>
        if r.id = rid then { r with status := .completed, completedAt := some o.now } else r)
      let runs2 :=
        if o.statsUpdateOk then
          runs1.map (fun r =>
            if r.id = rid then
              { r with projectsFound := found, projectsExtracted := extracted } else r)
        else runs1
      let s2 := safeCleanupOldRuns o { s1 with runs := runs2 }
      .ok ({ s2 with currentRunId := none }, true)
    else if o.directUpdateOk then
      let runs1 := s1.runs.map (fun r =>
        if r.id = rid then
          { r with status := .completed, completedAt := some o.now,
                   projectsFound := found, projectsExtracted := extracted } else r)
      let s2 := safeCleanupOldRuns o { s1 with runs := runs1 }
      .ok ({ s2 with currentRunId := none }, true)
    else .error .completeRunFailed

/-! ## Authentication detection and recovery (src/auth/detector.ts, src/auth/recovery.ts) -/

/-- Constant `CONFIG.TIMEOUTS.AUTH_RECOVERY` (5 minutes, in ms). -/
def AUTH_RECOVERY : Nat := 300000

/-- Constant `CONFIG.TIMEOUTS.AUTH_POLL_INTERVAL` (in ms). -/
def AUTH_POLL_INTERVAL : Nat := 2000

/-- Patterns `AUTH_URL_PATTERNS.LOGIN` from `src/config/constants.ts`. -/
def AUTH_URL_PATTERNS_LOGIN : List String :=
  ["auth0.openai.com", "/auth/login", "login.openai.com"]

/-- Patterns `AUTH_URL_PATTERNS.AUTHENTICATED` from `src/config/constants.ts`. -/
def AUTH_URL_PATTERNS_AUTHENTICATED : List String :=
  ["chatgpt.com"]

/-- What one inspection of the page observes: the current URL, whether some
sidebar selector became visible within its wait timeout, and whether some
login-UI indicator is visible. -/
structure PageView where
  url : String
  sidebarFound : Bool
  loginIndicatorVisible : Bool

/-- Model of `detectAuthState` (`src/auth/detector.ts` lines 10-73): login URL
patterns win, a URL off the ChatGPT domain means login is required, then a
visible sidebar means authenticated, then a visible login indicator means
login is required, else the state is unknown. -/
def detectAuthState (p : PageView) : AuthState :=
  if AUTH_URL_PATTERNS_LOGIN.any (fun pat => strInc p.url pat) then .login_required
  else if ¬(AUTH_URL_PATTERNS_AUTHENTICATED.any (fun pat => strInc p.url pat)) then
    .login_required
  else if p.sidebarFound then .authenticated
  else if p.loginIndicatorVisible then .login_required
  else .unknown

/-- Environment of one `ensureAuthenticated` call: the initial page view,
whether `page.reload` succeeds, the page view after the reload settles, and
the page view observed at each elapsed millisecond while polling. -/
structure AuthEnv where
  initialPage : PageView
  reloadOk : Bool
  postReloadPage : PageView
  pollPage : Nat → PageView

/-- Observable recovery actions, in order of occurrence. -/
inductive AuthEvent
  | reload
  | bringToFront
deriving DecidableEq

/-- The `AuthRecoveryError` thrown when the bounded login wait expires. -/
inductive AuthFailure
  | authRecoveryError
deriving DecidableEq

/-- The polling loop of `waitForAuthentication` (`src/auth/detector.ts`
lines 79-104): while elapsed time is below the timeout, detect the state;
return on `authenticated`, otherwise sleep one poll interval.  Returns the
result together with the elapsed time at exit. -/
def waitForAuthLoop (states : Nat → PageView) (timeoutMs elapsed : Nat) :
    Bool × Nat :=
  if elapsed < timeoutMs then
    if detectAuthState (states elapsed) = AuthState.authenticated then (true, elapsed)
    else waitForAuthLoop states timeoutMs (elapsed + AUTH_POLL_INTERVAL)
  else (false, elapsed)
termination_by timeoutMs - elapsed
decreasing_by
  simp [AUTH_POLL_INTERVAL]
  omega

/-- Model of `waitForAuthentication` with its default timeout. -/
def waitForAuthentication (states : Nat → PageView) (timeoutMs : Nat) : Bool :=
  (waitForAuthLoop states timeoutMs 0).1

/-- Model of `attemptAutoRecovery` (`src/auth/detector.ts` file, lines 122-142 of the
current revision): reload the page (a throwing reload is caught and counts
as failure), wait the settle delay, and succeed exactly when the re-checked
state is `authenticated`. -/
def attemptAutoRecovery (env : AuthEnv) : Bool × List AuthEvent :=
  (env.reloadOk && decide (detectAuthState env.postReloadPage = AuthState.authenticated),
   [AuthEvent.reload])

/-- Model of `recoverFromAuthExpiration`: try auto-recovery first (unless skipped)
and return silently when it succeeds; otherwise bring the browser to the
foreground and run the bounded login wait, throwing `AuthRecoveryError`
when it times out. -/
def recoverFromAuthExpiration (env : AuthEnv) (skipAutoRecovery : Bool) :
    Except AuthFailure Unit × List AuthEvent :=
  let auto := if skipAutoRecovery then (false, []) else attemptAutoRecovery env
  if auto.1 then (.ok (), auto.2)
  else
    let events := auto.2 ++ [AuthEvent.bringToFront]
    if waitForAuthentication env.pollPage AUTH_RECOVERY then (.ok (), events)
    else (.error .authRecoveryError, events)

/-- Model of `ensureAuthenticated` (`src/auth/recovery.ts` lines 51-73): detect the
state; `authenticated` returns true at once; the three other states run
recovery and return true when it does not throw. -/
def ensureAuthenticated (env : AuthEnv) :
    Except AuthFailure Bool × List AuthEvent :=
  match detectAuthState env.initialPage with
  | .authenticated => (.ok true, [])
  | .login_required =>
    let r := recoverFromAuthExpiration env false
    (r.1.map (fun _ => true), r.2)
  | .session_expired =>
    let r := recoverFromAuthExpiration env false
    (r.1.map (fun _ => true), r.2)
  | .unknown =>
    let r := recoverFromAuthExpiration env false
    (r.1.map (fun _ => true), r.2)

/-- The runs the legacy cleanup deletes: the completed runs past the
`KEEP_RUNS` most recently completed. -/
def runsDeletedByCleanup (runs : List RunRow) : List RunRow :=
  (completedDesc runs).drop KEEP_RUNS

/-- The completed runs the legacy cleanup retains. -/
def runsKeptByCleanup (runs : List RunRow) : List RunRow :=
  (completedDesc runs).take KEEP_RUNS

/-! ## Sample inputs used in concrete instantiations -/

/-- A page view of the ChatGPT login flow: URL matches a login pattern. -/
def loginPage : PageView :=
  ⟨"https://chatgpt.com/auth/login", false, false⟩

/-- A page view of an authenticated ChatGPT session. -/
def authedPage : PageView :=
  ⟨"https://chatgpt.com/", true, false⟩

/-- An environment whose session never becomes authenticated. -/
def envNeverAuth : AuthEnv :=
  ⟨loginPage, true, loginPage, fun _ => loginPage⟩

/-- An environment where the page reload restores authentication. -/
def envAutoRecover : AuthEnv :=
  ⟨loginPage, true, authedPage, fun _ => loginPage⟩

/-- A first observation of a project. -/
def recFirst : ProjectRecord :=
  ⟨"proj-1", "First Title", "2026-01-11T00:00:00.000Z", "2026-01-11T00:00:00.000Z",
   none, none, none, none⟩

/-- A later observation of the same project with a new label and
confirmation time. -/
def recLater : ProjectRecord :=
  ⟨"proj-1", "Updated Title", "2026-01-12T00:00:00.000Z", "2026-01-12T00:00:00.000Z",
   none, none, none, none⟩

/-- A completed run row with the given id and completion time. -/
def mkCompletedRun (id completedAt : Nat) : RunRow :=
  ⟨id, id, some completedAt, .completed, 0, 0⟩

/-- Four completed runs: ids 1..4 completed at times 10, 20, 30, 40. -/
def sampleRuns : List RunRow :=
  [mkCompletedRun 1 10, mkCompletedRun 2 20, mkCompletedRun 3 30, mkCompletedRun 4 40]

/-- Two project rows: one last confirmed by the oldest run (1), one last
confirmed by the most recent run (4) although first seen by run 1. -/
def sampleProjects : List ProjectRow :=
  [⟨"old-only", "Old", "a", "a", some 1, some 1⟩,
   ⟨"still-alive", "Alive", "a", "b", some 1, some 4⟩]

/-- A state with one buffered record and an active run. -/
def sampleState : SupabaseState :=
  ⟨[("proj-1", recFirst)], some 7, false, false,
   [⟨7, 0, none, .running, 0, 0⟩], [⟨"pre", "Pre", "a", "a", some 6, some 6⟩]⟩

/-- An oracle where the final flush fails and everything else succeeds. -/
def failingFlushOracle : CompleteOracle :=
  ⟨false, true, true, true, true, true, true, 99⟩

/-! # Theorems -/

/-! ## C3 — scroll-stability termination on the simulated sequence -/

/-- C3, counterexample.  The claim states that with the per-iteration count
sequence `[10, 25, 40, 40, 40]` and `stabilityThreshold = 3` the loop
terminates at iteration 5 returning 40.  In the code the stability counter
only increments on the 4th and 5th observations (the first three all
increase the count), so after five iterations `stableIterations = 2 < 3`
and the loop is still running: the run on the five-element sequence does
not terminate at all, in particular not at iteration 5 with count 40. -/
theorem c3_scroll_counterexample :
    scrollUntilExhausted [10, 25, 40, 40, 40] 3 = none ∧
    scrollUntilExhausted [10, 25, 40, 40, 40] 3 ≠ some ⟨5, 40⟩ := by
  decide

/-- C3, amended.  With `stabilityThreshold = 3` the loop is still running
after the five observations `[10, 25, 40, 40, 40]`; extending the
simulation with a sixth stable observation of 40, it terminates at
iteration 6 reporting a final count of 40. -/
theorem c3_scroll_amended :
    scrollUntilExhausted [10, 25, 40, 40, 40] 3 = none ∧
    scrollUntilExhausted [10, 25, 40, 40, 40, 40] 3 = some ⟨6, 40⟩ := by
  decide

/-! ## C9 — popup extraction accounting -/

/-- Every located item contributes to exactly one of the two counters. -/
theorem extractProjectsFromPopup_total (now : String) :
    ∀ items : List ItemFetch,
      (extractProjectsFromPopup now items).1.extracted
        + (extractProjectsFromPopup now items).1.failed = items.length := by
  intro items
  induction items with
  | nil => rfl
  | cons item rest ih =>
    cases item with
    | throws =>
      simp only [extractProjectsFromPopup, List.length_cons]
      omega
    | ok href innerText titleAttr =>
      cases h : extractIdFromHref href with
      | none =>
        simp only [extractProjectsFromPopup, h, List.length_cons]
        omega
      | some id =>
        simp only [extractProjectsFromPopup, h, List.length_cons]
        omega

/-- C9: for a list of `n` located items the popup extraction returns
`extracted + failed = n`; an empty list yields `extracted = 0` and
`failed = 0` with no records and no error; a throwing item increments
`failed` and leaves `extracted` unchanged, as does an item whose
identifier cannot be parsed — neither aborts the loop. -/
theorem c9_popup_extraction_accounting (now : String) :
    (∀ items : List ItemFetch,
       (extractProjectsFromPopup now items).1.extracted
         + (extractProjectsFromPopup now items).1.failed = items.length) ∧
    extractProjectsFromPopup now [] = (⟨0, 0⟩, []) ∧
    (∀ items : List ItemFetch,
       (extractProjectsFromPopup now (ItemFetch.throws :: items)).1.failed
           = (extractProjectsFromPopup now items).1.failed + 1 ∧
       (extractProjectsFromPopup now (ItemFetch.throws :: items)).1.extracted
           = (extractProjectsFromPopup now items).1.extracted) ∧
    (∀ (items : List ItemFetch) (href : Option String) (innerText : String)
       (titleAttr : Option String), extractIdFromHref href = none →
       (extractProjectsFromPopup now (ItemFetch.ok href innerText titleAttr :: items)).1.failed
           = (extractProjectsFromPopup now items).1.failed + 1 ∧
       (extractProjectsFromPopup now (ItemFetch.ok href innerText titleAttr :: items)).1.extracted
           = (extractProjectsFromPopup now items).1.extracted) := by
  refine ⟨extractProjectsFromPopup_total now, rfl, ?_, ?_⟩
  · intro items
    simp [extractProjectsFromPopup]
  · intro items href innerText titleAttr h
    simp [extractProjectsFromPopup, h]

/-- C9, witness: an item with a missing `href` cannot be parsed and is
counted as failed without aborting. -/
theorem c9_witness :
    extractIdFromHref none = none ∧
    ((extractProjectsFromPopup "2026-01-20T00:00:00.000Z"
        [ItemFetch.ok none "" none]).1.failed
      = (extractProjectsFromPopup "2026-01-20T00:00:00.000Z" []).1.failed + 1 ∧
     (extractProjectsFromPopup "2026-01-20T00:00:00.000Z"
        [ItemFetch.ok none "" none]).1.extracted
      = (extractProjectsFromPopup "2026-01-20T00:00:00.000Z" []).1.extracted) :=
  ⟨rfl, (c9_popup_extraction_accounting "2026-01-20T00:00:00.000Z").2.2.2
    [] none "" none rfl⟩

/-! ## C5 — label preference order -/

/-- C5, counterexample.  The claim states an explicit title/tooltip value
is preferred over inline text in every extraction, but
`extractProjectsFromPopup` (the primary path) prefers inline text: with a
usable title attribute `"My Project Full Name"` present, the truncated
inline text `"My Pro"` is stored. -/
theorem c5_label_counterexample :
    usableOpt (some "My Project Full Name") = true ∧
    chooseTitlePopup "My Pro" (some "My Project Full Name") "g-p-abc123-demo"
      = "My Pro" ∧
    "My Pro" ≠ "My Project Full Name" := by
  decide

/-- C5, amended.  Hover-based extraction (`extractProjectData`) prefers
tooltip over title attribute over inline text, as the claim states; popup
extraction (`extractProjectsFromPopup`) instead prefers inline text over
the title attribute.  In both, the slug fallback is used only when no
other candidate is usable. -/
theorem c5_label_preference :
    (∀ (fullTitle titleAttr innerTextTitle : Option String) (id : String),
       usableOpt fullTitle = true →
       chooseTitleData fullTitle titleAttr innerTextTitle id = fullTitle.getD "") ∧
    (∀ (fullTitle titleAttr innerTextTitle : Option String) (id : String),
       usableOpt fullTitle = false → usableOpt titleAttr = true →
       chooseTitleData fullTitle titleAttr innerTextTitle id = titleAttr.getD "") ∧
    (∀ (fullTitle titleAttr innerTextTitle : Option String) (id : String),
       usableOpt fullTitle = false → usableOpt titleAttr = false →
       usableOpt innerTextTitle = true →
       chooseTitleData fullTitle titleAttr innerTextTitle id = innerTextTitle.getD "") ∧
    (∀ (innerText : String) (titleAttr : Option String) (id : String),
       usableStr innerText = true →
       chooseTitlePopup innerText titleAttr id = innerText) ∧
    (∀ (innerText : String) (titleAttr : Option String) (id : String),
       usableStr innerText = false → usableOpt titleAttr = true →
       chooseTitlePopup innerText titleAttr id = titleAttr.getD "") ∧
    (∀ (innerText : String) (titleAttr : Option String) (id : String),
       usableStr innerText = false → usableOpt titleAttr = false →
       chooseTitlePopup innerText titleAttr id =
         (match slugCapture id with
          | some cap => dashesToSpaces cap
          | none => id)) := by
  refine ⟨?_, ?_, ?_, ?_, ?_, ?_⟩
  · intro fullTitle titleAttr innerTextTitle id h
    simp [chooseTitleData, h]
  · intro fullTitle titleAttr innerTextTitle id h1 h2
    simp [chooseTitleData, h1, h2]
  · intro fullTitle titleAttr innerTextTitle id h1 h2 h3
    simp [chooseTitleData, h1, h2, h3]
  · intro innerText titleAttr id h
    simp [chooseTitlePopup, h]
  · intro innerText titleAttr id h1 h2
    simp [chooseTitlePopup, h1, h2]
  · intro innerText titleAttr id h1 h2
    simp [chooseTitlePopup, h1, h2]

/-- C5, witness: with no usable inline text the popup chooser falls back to
the title attribute, and with neither candidate it derives the slug. -/
theorem c5_label_preference_witness :
    (usableStr "" = false ∧ usableOpt (some "Attr Title") = true ∧
      chooseTitlePopup "" (some "Attr Title") "g-p-a1-x" = (some "Attr Title").getD "") ∧
    (usableOpt (some "Tip") = true ∧
      chooseTitleData (some "Tip") (some "Attr") (some "Inline") "g-p-a1-x"
        = (some "Tip").getD "") :=
  ⟨⟨by decide, by decide,
    c5_label_preference.2.2.2.2.1 "" (some "Attr Title") "g-p-a1-x" (by decide) (by decide)⟩,
   ⟨by decide,
    c5_label_preference.1 (some "Tip") (some "Attr") (some "Inline") "g-p-a1-x" (by decide)⟩⟩

/-! ## C6 — local writer dedup invariant -/

/-- Lemma: `bufSet` preserves the key list when the key is present, else appends it. -/
theorem bufSet_keys_nodup (buffer : List (String × ProjectRecord)) (k : String)
    (v : ProjectRecord) (h : (buffer.map Prod.fst).Nodup) :
    ((bufSet buffer k v).map Prod.fst).Nodup := by
  unfold bufSet
  by_cases hany : buffer.any (fun e => decide (e.1 = k)) = true
  · rw [if_pos hany]
    have heq : (buffer.map (fun e => if e.1 = k then (k, v) else e)).map Prod.fst
        = buffer.map Prod.fst := by
      rw [List.map_map]
      apply List.map_congr_left
      intro e _
      by_cases h1 : e.1 = k
      · simp [h1]
      · simp [h1]
    rw [heq]
    exact h
  · rw [if_neg hany]
    rw [List.map_append]
    rw [List.nodup_append]
    refine ⟨h, by simp, ?_⟩
    intro a ha
    simp only [List.map_cons, List.map_nil, List.mem_singleton]
    intro hak
    apply hany
    rw [List.any_eq_true]
    rcases List.mem_map.mp ha with ⟨e, he, hek⟩
    exact ⟨e, he, by simp [hek, hak]⟩

/-- Lemma: `addProject` preserves uniqueness of ids. -/
theorem addProject_keys_nodup (buffer : List (String × ProjectRecord))
    (p : ProjectRecord) (h : (buffer.map Prod.fst).Nodup) :
    ((addProject buffer p).map Prod.fst).Nodup := by
  unfold addProject
  cases bufGet buffer p.id with
  | some existing => exact bufSet_keys_nodup buffer p.id (mergeExisting existing p) h
  | none => exact bufSet_keys_nodup buffer p.id p h

/-- Folding any sequence of `addProject` calls from a buffer with unique
ids keeps ids unique. -/
theorem foldl_addProject_nodup :
    ∀ (ps : List ProjectRecord) (buffer : List (String × ProjectRecord)),
      (buffer.map Prod.fst).Nodup → ((ps.foldl addProject buffer).map Prod.fst).Nodup := by
  intro ps
  induction ps with
  | nil => intro buffer h; exact h
  | cons p rest ih =>
    intro buffer h
    exact ih (addProject buffer p) (addProject_keys_nodup buffer p h)

/-- C6: stored records are unique by id for every sequence of `addProject`
calls starting from the empty store, and adding a second record with the
same id yields exactly one stored record whose `firstSeenAt` comes from the
first insertion while `title` and `lastConfirmedAt` come from the latest. -/
theorem c6_addProject_dedup :
    (∀ ps : List ProjectRecord, ((ps.foldl addProject []).map Prod.fst).Nodup) ∧
    (∀ p q : ProjectRecord, q.id = p.id →
       addProject (addProject [] p) q = [(p.id, mergeExisting p q)] ∧
       (mergeExisting p q).firstSeenAt = p.firstSeenAt ∧
       (mergeExisting p q).title = q.title ∧
       (mergeExisting p q).lastConfirmedAt = q.lastConfirmedAt) := by
  constructor
  · intro ps
    exact foldl_addProject_nodup ps [] (by simp)
  · intro p q hid
    have h1 : addProject [] p = [(p.id, p)] := by
      simp [addProject, bufGet, bufSet]
    refine ⟨?_, rfl, rfl, rfl⟩
    rw [h1]
    simp [addProject, bufGet, bufSet, hid]

/-- C6, witness: two concrete records with the same id collapse to a single
record keeping the original `firstSeenAt` and the updated title and
confirmation time. -/
theorem c6_addProject_dedup_witness :
    recLater.id = recFirst.id ∧
    (addProject (addProject [] recFirst) recLater
        = [(recFirst.id, mergeExisting recFirst recLater)] ∧
     (mergeExisting recFirst recLater).firstSeenAt = recFirst.firstSeenAt ∧
     (mergeExisting recFirst recLater).title = recLater.title ∧
     (mergeExisting recFirst recLater).lastConfirmedAt = recLater.lastConfirmedAt) :=
  ⟨rfl, c6_addProject_dedup.2 recFirst recLater rfl⟩

/-! ## C4 — bounded termination of the ceiling-guarded scroll loops -/

/-- The bounded loop never exceeds the ceiling, and at exit either the
stability threshold was reached or the ceiling was hit. -/
theorem scrollLoopBounded_spec (counts : Nat → Nat) (th maxA : Nat) :
    ∀ (fuel : Nat) (s : ScrollState), maxA - s.scrollAttempts ≤ fuel →
      s.scrollAttempts ≤ maxA →
      (scrollLoopBounded counts th maxA s).scrollAttempts ≤ maxA ∧
      (th ≤ (scrollLoopBounded counts th maxA s).stableIterations ∨
        (scrollLoopBounded counts th maxA s).scrollAttempts = maxA) := by
  intro fuel
  induction fuel with
  | zero =>
    intro s hfuel hle
    have hstop : ¬(s.stableIterations < th ∧ s.scrollAttempts < maxA) := by omega
    rw [scrollLoopBounded, dif_neg hstop]
    refine ⟨hle, ?_⟩
    omega
  | succ n ih =>
    intro s hfuel hle
    by_cases hcond : s.stableIterations < th ∧ s.scrollAttempts < maxA
    · rw [scrollLoopBounded, dif_pos hcond]
      have hstep : (scrollStep counts s).scrollAttempts = s.scrollAttempts + 1 := rfl
      apply ih
      · rw [hstep]; omega
      · rw [hstep]; omega
    · rw [scrollLoopBounded, dif_neg hcond]
      refine ⟨hle, ?_⟩
      omega

/-- C4: for every sequence of observed item counts — including one growing
forever — the popup scroll loop (threshold 10, ceiling 500) and the
ceiling-guarded sidebar loop (threshold `STABILITY_THRESHOLD = 5`, ceiling
100) terminate after at most the ceiling many iterations, stopping either
because `stableIterations` reached the stability threshold or because the
hard iteration ceiling was reached. -/
theorem c4_scroll_bounded_termination (counts : Nat → Nat) :
    ((scrollLoopBounded counts 10 500 ⟨0, counts 0, 0⟩).scrollAttempts ≤ 500 ∧
     (10 ≤ (scrollLoopBounded counts 10 500 ⟨0, counts 0, 0⟩).stableIterations ∨
       (scrollLoopBounded counts 10 500 ⟨0, counts 0, 0⟩).scrollAttempts = 500)) ∧
    ((scrollLoopBounded counts STABILITY_THRESHOLD 100 ⟨0, counts 0, 0⟩).scrollAttempts ≤ 100 ∧
     (STABILITY_THRESHOLD ≤
         (scrollLoopBounded counts STABILITY_THRESHOLD 100 ⟨0, counts 0, 0⟩).stableIterations ∨
       (scrollLoopBounded counts STABILITY_THRESHOLD 100 ⟨0, counts 0, 0⟩).scrollAttempts = 100)) :=
  ⟨scrollLoopBounded_spec counts 10 500 500 ⟨0, counts 0, 0⟩ (by simp) (by simp),
   scrollLoopBounded_spec counts STABILITY_THRESHOLD 100 100 ⟨0, counts 0, 0⟩
     (by simp) (by simp)⟩

/-! ## C7 / C8 / C10 — authentication recovery -/

/-- When no poll ever observes an authenticated page, the bounded wait
returns `false` with elapsed time in `[timeout, timeout + pollInterval)`. -/
theorem waitForAuthLoop_never (states : Nat → PageView) (timeoutMs : Nat)
    (hnever : ∀ t, detectAuthState (states t) ≠ AuthState.authenticated) :
    ∀ (fuel e : Nat), timeoutMs - e ≤ fuel → e < timeoutMs + AUTH_POLL_INTERVAL →
      (waitForAuthLoop states timeoutMs e).1 = false ∧
      timeoutMs ≤ (waitForAuthLoop states timeoutMs e).2 ∧
      (waitForAuthLoop states timeoutMs e).2 < timeoutMs + AUTH_POLL_INTERVAL := by
  intro fuel
  induction fuel with
  | zero =>
    intro e hfuel hlt
    have hstop : ¬ e < timeoutMs := by omega
    rw [waitForAuthLoop, if_neg hstop]
    exact ⟨rfl, by omega, hlt⟩
  | succ n ih =>
    intro e hfuel hlt
    by_cases hrun : e < timeoutMs
    · rw [waitForAuthLoop, if_pos hrun, if_neg (hnever e)]
      apply ih
      · simp only [AUTH_POLL_INTERVAL]
        omega
      · simp only [AUTH_POLL_INTERVAL] at hlt ⊢
        omega
    · rw [waitForAuthLoop, if_neg hrun]
      exact ⟨rfl, by omega, hlt⟩

/-- Lemma: `ensureAuthenticated` either returns `true` or throws
`AuthRecoveryError`; there is no other outcome. -/
theorem ensureAuthenticated_outcomes (env : AuthEnv) :
    (ensureAuthenticated env).1 = .ok true ∨
    (ensureAuthenticated env).1 = .error .authRecoveryError := by
  unfold ensureAuthenticated recoverFromAuthExpiration
  cases detectAuthState env.initialPage <;>
    [skip; skip; skip; skip] <;>
    first
      | exact Or.inl rfl
      | (by_cases hauto : (attemptAutoRecovery env).1 = true
         · simp [hauto, Except.map]
         · simp only [Bool.not_eq_true] at hauto
           by_cases hwait : waitForAuthentication env.pollPage AUTH_RECOVERY = true
           · simp [hauto, hwait, Except.map]
           · simp only [Bool.not_eq_true] at hwait
             simp [hauto, hwait, Except.map])

/-- C7: when the detected state never becomes `authenticated` — not
initially, not after the auto-recovery reload, and at no poll during the
bounded wait — `ensureAuthenticated` throws `AuthRecoveryError`, the
bounded wait having expired with elapsed time at least the configured
`AUTH_RECOVERY` timeout and within one `AUTH_POLL_INTERVAL` above it; and
for every environment whatsoever the check either returns `true` or throws
`AuthRecoveryError` — it never silently continues. -/
theorem c7_auth_recovery_timeout (env : AuthEnv)
    (hinit : detectAuthState env.initialPage ≠ AuthState.authenticated)
    (hpost : detectAuthState env.postReloadPage ≠ AuthState.authenticated)
    (hpoll : ∀ t, detectAuthState (env.pollPage t) ≠ AuthState.authenticated) :
    (ensureAuthenticated env).1 = .error .authRecoveryError ∧
    (waitForAuthLoop env.pollPage AUTH_RECOVERY 0).1 = false ∧
    AUTH_RECOVERY ≤ (waitForAuthLoop env.pollPage AUTH_RECOVERY 0).2 ∧
    (waitForAuthLoop env.pollPage AUTH_RECOVERY 0).2
      < AUTH_RECOVERY + AUTH_POLL_INTERVAL ∧
    (∀ env' : AuthEnv, (ensureAuthenticated env').1 = .ok true ∨
      (ensureAuthenticated env').1 = .error .authRecoveryError) := by
  have hwaitfull := waitForAuthLoop_never env.pollPage AUTH_RECOVERY hpoll
    AUTH_RECOVERY 0 (by omega) (by simp [AUTH_POLL_INTERVAL, AUTH_RECOVERY])
  have hauto : (attemptAutoRecovery env).1 = false := by
    simp [attemptAutoRecovery, hpost]
  have hwait : waitForAuthentication env.pollPage AUTH_RECOVERY = false := by
    simp [waitForAuthentication, hwaitfull.1]
  refine ⟨?_, hwaitfull.1, hwaitfull.2.1, hwaitfull.2.2, ensureAuthenticated_outcomes⟩
  unfold ensureAuthenticated recoverFromAuthExpiration
  cases hstate : detectAuthState env.initialPage with
  | authenticated => exact absurd hstate hinit
  | login_required => simp [hauto, hwait, Except.map]
  | session_expired => simp [hauto, hwait, Except.map]
  | unknown => simp [hauto, hwait, Except.map]

/-- C7, witness: in an environment that always shows the login page, the
check throws after the full timeout. -/
theorem c7_auth_recovery_timeout_witness :
    (ensureAuthenticated envNeverAuth).1 = .error .authRecoveryError :=
  (c7_auth_recovery_timeout envNeverAuth (by decide) (by decide)
    (by intro t
        show detectAuthState loginPage ≠ AuthState.authenticated
        decide)).1

/-- C8: whenever the detected state is `login_required`, `session_expired`
or `unknown`, recovery attempts the auto-recovery reload first; if
auto-recovery succeeds the check returns `true` silently, with the reload
as the only observable action; only if auto-recovery fails is the session
brought to the foreground, after which the state is polled up to the
bounded `AUTH_RECOVERY` timeout and the outcome is decided by that wait. -/
theorem c8_auto_recovery_first (env : AuthEnv)
    (hstate : detectAuthState env.initialPage = AuthState.login_required ∨
      detectAuthState env.initialPage = AuthState.session_expired ∨
      detectAuthState env.initialPage = AuthState.unknown) :
    (ensureAuthenticated env).2.head? = some AuthEvent.reload ∧
    ((attemptAutoRecovery env).1 = true →
      ensureAuthenticated env = (.ok true, [AuthEvent.reload])) ∧
    ((attemptAutoRecovery env).1 = false →
      (ensureAuthenticated env).2 = [AuthEvent.reload, AuthEvent.bringToFront] ∧
      (ensureAuthenticated env).1 =
        (if waitForAuthentication env.pollPage AUTH_RECOVERY then .ok true
         else .error .authRecoveryError)) := by
  have hrec : ensureAuthenticated env =
      ((recoverFromAuthExpiration env false).1.map (fun _ => true),
        (recoverFromAuthExpiration env false).2) := by
    unfold ensureAuthenticated
    rcases hstate with h | h | h <;> rw [h]
  have hev : (attemptAutoRecovery env).2 = [AuthEvent.reload] := rfl
  rw [hrec]
  unfold recoverFromAuthExpiration
  by_cases hauto : (attemptAutoRecovery env).1 = true
  · simp [hauto, hev, Except.map]
  · simp only [Bool.not_eq_true] at hauto
    by_cases hwait : waitForAuthentication env.pollPage AUTH_RECOVERY = true
    · simp [hauto, hev, hwait, Except.map]
    · simp only [Bool.not_eq_true] at hwait
      simp [hauto, hev, hwait, Except.map]

/-- C8, witness: from a login page, a reload that restores authentication
makes the check return `true` with the reload as the only action. -/
theorem c8_auto_recovery_first_witness :
    (attemptAutoRecovery envAutoRecover).1 = true ∧
    ensureAuthenticated envAutoRecover = (.ok true, [AuthEvent.reload]) :=
  ⟨by decide,
   (c8_auto_recovery_first envAutoRecover (Or.inl (by decide))).2.1 (by decide)⟩

/-- C10: `ensureAuthenticated` never returns `false` — for every
environment (hence every `AuthState` value `detectAuthState` can produce)
it either returns `true` or throws `AuthRecoveryError`, so the `default`
branch of its `switch` is unreachable. -/
theorem c10_ensureAuthenticated_never_false (env : AuthEnv) :
    (ensureAuthenticated env).1 ≠ .ok false ∧
    ((ensureAuthenticated env).1 = .ok true ∨
      (ensureAuthenticated env).1 = .error .authRecoveryError) := by
  refine ⟨?_, ensureAuthenticated_outcomes env⟩
  rcases ensureAuthenticated_outcomes env with h | h <;> rw [h] <;> simp

/-! ## C1 — the completeRun atomicity gate -/

/-- Lemma: `flush` never touches the `runs` table. -/
theorem flush_runs (ok : Bool) (s : SupabaseState) : (flush ok s).runs = s.runs := by
  unfold flush
  by_cases h1 : s.buffer = []
  · simp [h1]
  · by_cases h2 : ok = true
    · simp [h1, h2]
    · simp only [Bool.not_eq_true] at h2
      simp [h1, h2]

/-- Lemma: `flush` never touches the current-run pointer. -/
theorem flush_currentRunId (ok : Bool) (s : SupabaseState) :
    (flush ok s).currentRunId = s.currentRunId := by
  unfold flush
  by_cases h1 : s.buffer = []
  · simp [h1]
  · by_cases h2 : ok = true
    · simp [h1, h2]
    · simp only [Bool.not_eq_true] at h2
      simp [h1, h2]

/-- A failed flush was an actual attempt, and it leaves both the stored
projects and the buffer untouched. -/
theorem flush_failed_state (ok : Bool) (s : SupabaseState)
    (h : (flush ok s).flushSucceeded = false) :
    (flush ok s).flushAttempted = true ∧
    (flush ok s).projects = s.projects ∧
    (flush ok s).buffer = s.buffer := by
  unfold flush at h ⊢
  by_cases h1 : s.buffer = []
  · simp [h1] at h
  · by_cases h2 : ok = true
    · simp [h1, h2] at h
    · simp only [Bool.not_eq_true] at h2
      simp [h1, h2]

/-- Upserting one row never removes an id. -/
theorem upsertRow_id_preserved (cur : List ProjectRow) (r p : ProjectRow)
    (hp : p ∈ cur) : ∃ q ∈ upsertRow cur r, q.id = p.id := by
  unfold upsertRow
  by_cases h : cur.any (fun x => decide (x.id = r.id)) = true
  · rw [if_pos h]
    refine ⟨if p.id = r.id then r else p, List.mem_map.mpr ⟨p, hp, rfl⟩, ?_⟩
    by_cases h2 : p.id = r.id
    · simp [h2]
    · simp [h2]
  · rw [if_neg h]
    exact ⟨p, List.mem_append_left _ hp, rfl⟩

/-- Upserting a batch never removes an id. -/
theorem upsertRows_id_preserved :
    ∀ (rows cur : List ProjectRow) (p : ProjectRow), p ∈ cur →
      ∃ q ∈ upsertRows cur rows, q.id = p.id := by
  intro rows
  induction rows with
  | nil => intro cur p hp; exact ⟨p, hp, rfl⟩
  | cons r rest ih =>
    intro cur p hp
    rcases upsertRow_id_preserved cur r p hp with ⟨q, hq, hid⟩
    rcases ih (upsertRow cur r) q hq with ⟨q2, hq2, hid2⟩
    exact ⟨q2, hq2, hid2.trans hid⟩

/-- A flush (successful or not) never removes a stored project id. -/
theorem flush_id_preserved (ok : Bool) (s : SupabaseState) (p : ProjectRow)
    (hp : p ∈ s.projects) : ∃ q ∈ (flush ok s).projects, q.id = p.id := by
  unfold flush
  by_cases h1 : s.buffer = []
  · simp only [h1, if_pos]
    exact ⟨p, by simpa using hp, rfl⟩
  · by_cases h2 : ok = true
    · simp only [h1, h2, if_neg, if_pos]
      exact upsertRows_id_preserved _ _ p (by simpa using hp)
    · simp only [Bool.not_eq_true] at h2
      simp only [h1, h2]
      exact ⟨p, by simpa using hp, rfl⟩

/-- What `failRun` does to a state with an active run: run ids are
unchanged, the active run's rows are marked `failed`, other runs are
untouched, and no stored project id disappears. -/
theorem failRun_spec (fok : Bool) (now : Nat) (s : SupabaseState) (rid : Nat)
    (h : s.currentRunId = some rid) :
    (failRun fok now s).runs.map (fun r => r.id) = s.runs.map (fun r => r.id) ∧
    (∀ r ∈ (failRun fok now s).runs, r.id = rid → r.status = RunStatus.failed) ∧
    (∀ r ∈ (failRun fok now s).runs, r.id ≠ rid → r ∈ s.runs) ∧
    (∀ p ∈ s.projects, ∃ q ∈ (failRun fok now s).projects, q.id = p.id) := by
  unfold failRun
  rw [h]
  set s1 := if 0 < s.buffer.length then flush fok s else s with hs1
  have hruns : s1.runs = s.runs := by
    rw [hs1]
    by_cases hb : 0 < s.buffer.length
    · rw [if_pos hb]; exact flush_runs fok s
    · rw [if_neg hb]
  have hproj : ∀ p ∈ s.projects, ∃ q ∈ s1.projects, q.id = p.id := by
    intro p hp
    rw [hs1]
    by_cases hb : 0 < s.buffer.length
    · rw [if_pos hb]; exact flush_id_preserved fok s p hp
    · rw [if_neg hb]; exact ⟨p, hp, rfl⟩
  refine ⟨?_, ?_, ?_, ?_⟩
  · simp only [hruns, List.map_map]
    apply List.map_congr_left
    intro r _
    by_cases hr : r.id = rid
    · simp [hr]
    · simp [hr]
  · intro r hr hid
    simp only [hruns, List.mem_map] at hr
    rcases hr with ⟨r0, _, hr0⟩
    by_cases hcase : r0.id = rid
    · rw [← hr0]
      simp [hcase]
    · rw [← hr0] at hid
      simp [hcase] at hid
  · intro r hr hid
    simp only [hruns, List.mem_map] at hr
    rcases hr with ⟨r0, hr0mem, hr0⟩
    by_cases hcase : r0.id = rid
    · rw [← hr0] at hid
      simp [hcase] at hid
    · rw [← hr0]
      simp only [hcase, if_neg]
      simpa [hcase] using hr0mem
  · intro p hp
    simpa using hproj p hp

/-- C1: `completeRun` performs a final flush; if that flush failed the run
is marked `failed` (not `completed`), retention cleanup is not invoked —
no run row and no stored project id is deleted, and runs other than the
active one are untouched; the run can only end up `completed` when the
final flush succeeded; and when the flush succeeded and a promotion path
is available, the run completes with cleanup invoked. -/
theorem c1_completeRun_atomicity (s : SupabaseState) (o : CompleteOracle)
    (found extracted rid : Nat) (hrid : s.currentRunId = some rid) :
    ((flush o.finalFlushOk s).flushSucceeded = false →
       ∃ s' : SupabaseState,
         completeRun o found extracted s = .ok (s', false) ∧
         s'.runs.map (fun r => r.id) = s.runs.map (fun r => r.id) ∧
         (∀ r ∈ s'.runs, r.id = rid → r.status = RunStatus.failed) ∧
         (∀ r ∈ s'.runs, r.id ≠ rid → r ∈ s.runs) ∧
         (∀ p ∈ s.projects, ∃ q ∈ s'.projects, q.id = p.id)) ∧
    (∀ (s' : SupabaseState) (ran : Bool),
       completeRun o found extracted s = .ok (s', ran) →
       (∃ r ∈ s'.runs, r.id = rid ∧ r.status = RunStatus.completed) →
       (flush o.finalFlushOk s).flushSucceeded = true) ∧
    ((flush o.finalFlushOk s).flushSucceeded = true →
       o.promoteRpcOk = true ∨ o.directUpdateOk = true →
       ∃ s', completeRun o found extracted s = .ok (s', true)) := by
  set s1 := flush o.finalFlushOk s with hs1
  have hrun1 : s1.currentRunId = some rid := by
    rw [hs1, flush_currentRunId, hrid]
  have hruns1 : s1.runs = s.runs := by rw [hs1, flush_runs]
  have hfailBranch : s1.flushSucceeded = false →
      completeRun o found extracted s = .ok (failRun o.failFlushOk o.now s1, false) := by
    intro hfail
    have hatt := (flush_failed_state o.finalFlushOk s (hs1 ▸ hfail)).1
    have hcond : ¬(flush o.finalFlushOk s).flushSucceeded = true ∧
        (flush o.finalFlushOk s).flushAttempted = true :=
      ⟨by rw [← hs1]; simp [hfail], hatt⟩
    simp only [completeRun, hrid]
    rw [if_pos hcond]
  constructor
  · intro hfail
    have hproj1 : s1.projects = s.projects :=
      (flush_failed_state o.finalFlushOk s (hs1 ▸ hfail)).2.1
    refine ⟨failRun o.failFlushOk o.now s1, hfailBranch hfail, ?_, ?_, ?_, ?_⟩
    · rw [(failRun_spec o.failFlushOk o.now s1 rid hrun1).1, hruns1]
    · exact (failRun_spec o.failFlushOk o.now s1 rid hrun1).2.1
    · intro r hr hne
      have := (failRun_spec o.failFlushOk o.now s1 rid hrun1).2.2.1 r hr hne
      rwa [hruns1] at this
    · intro p hp
      exact (failRun_spec o.failFlushOk o.now s1 rid hrun1).2.2.2 p (by rw [hproj1]; exact hp)
  constructor
  · intro s' ran hok hcompleted
    by_cases hsucc : s1.flushSucceeded = true
    · exact hs1 ▸ hsucc
    · simp only [Bool.not_eq_true] at hsucc
      rw [hfailBranch hsucc] at hok
      have hs' : failRun o.failFlushOk o.now s1 = s' := by
        injection hok with h1
        injection h1 with h2 h3
      rcases hcompleted with ⟨r, hr, hid, hst⟩
      have hfailed := (failRun_spec o.failFlushOk o.now s1 rid hrun1).2.1 r
        (by rw [hs']; exact hr) hid
      rw [hst] at hfailed
      cases hfailed
  · intro hsucc hpath
    have hgate : ¬(¬(flush o.finalFlushOk s).flushSucceeded = true ∧
        (flush o.finalFlushOk s).flushAttempted = true) := by
      have h1 : (flush o.finalFlushOk s).flushSucceeded = true := hs1 ▸ hsucc
      simp [h1]
    simp only [completeRun, hrid]
    rw [if_neg hgate]
    rcases hpath with hp | hd
    · rw [if_pos hp]
      exact ⟨_, rfl⟩
    · by_cases hp : o.promoteRpcOk = true
      · rw [if_pos hp]
        exact ⟨_, rfl⟩
      · simp only [Bool.not_eq_true] at hp
        rw [if_neg (by simp [hp]), if_pos hd]
        exact ⟨_, rfl⟩

/-- C1, witness: a state with one buffered record and an active run whose
final flush fails ends with the run marked `failed` and no cleanup. -/
theorem c1_completeRun_atomicity_witness :
    ∃ s' : SupabaseState,
      completeRun failingFlushOracle 1 1 sampleState = .ok (s', false) ∧
      s'.runs.map (fun r => r.id) = sampleState.runs.map (fun r => r.id) ∧
      (∀ r ∈ s'.runs, r.id = 7 → r.status = RunStatus.failed) ∧
      (∀ r ∈ s'.runs, r.id ≠ 7 → r ∈ sampleState.runs) ∧
      (∀ p ∈ sampleState.projects, ∃ q ∈ s'.projects, q.id = p.id) :=
  (c1_completeRun_atomicity sampleState failingFlushOracle 1 1 7 rfl).1 (by decide)

/-! ## C2 — retention cleanup correctness -/

/-- Lemma: `completedDescLE` is transitive. -/
theorem completedDescLE_trans (a b c : Option Nat)
    (h1 : completedDescLE a b = true) (h2 : completedDescLE b c = true) :
    completedDescLE a c = true := by
  cases a <;> cases b <;> cases c <;> simp_all [completedDescLE] <;> omega

/-- Lemma: `completedDescLE` is total. -/
theorem completedDescLE_total (a b : Option Nat) :
    (completedDescLE a b || completedDescLE b a) = true := by
  cases a <;> cases b <;> simp [completedDescLE] <;> omega

/-- Lemma: `completedDesc` is a permutation of the completed runs. -/
theorem completedDesc_perm (runs : List RunRow) :
    (completedDesc runs).Perm
      (runs.filter (fun r => decide (r.status = RunStatus.completed))) :=
  List.mergeSort_perm _ _

/-- Membership in `completedDesc`. -/
theorem mem_completedDesc {runs : List RunRow} {r : RunRow} :
    r ∈ completedDesc runs ↔ r ∈ runs ∧ r.status = RunStatus.completed := by
  rw [(completedDesc_perm runs).mem_iff, List.mem_filter]
  simp

/-- Lemma: `completedDesc` is sorted by descending completion time. -/
theorem completedDesc_pairwise (runs : List RunRow) :
    List.Pairwise (fun a b => completedDescLE a.completedAt b.completedAt = true)
      (completedDesc runs) :=
  List.sorted_mergeSort
    (fun a b c => completedDescLE_trans a.completedAt b.completedAt c.completedAt)
    (fun a b => completedDescLE_total a.completedAt b.completedAt) _

/-- C2: with `KEEP_RUNS = 3`, the legacy cleanup retains exactly the runs
that are not among the completed runs past the three most recently
completed; every deleted run is completed and strictly older than every
retained completed run; a project row is deleted exactly when its
`last_confirmed_run_id` is among the deleted run ids; and a project whose
last-confirming run is among the retained runs always survives, regardless
of which run first discovered it. -/
theorem c2_retention_cleanup (runs : List RunRow) (projects : List ProjectRow)
    (hids : (runs.map (fun r => r.id)).Nodup)
    (hts : ((runs.filter (fun r => decide (r.status = RunStatus.completed))).map
        (fun r => r.completedAt)).Nodup)
    (hsome : ∀ r ∈ runs, r.status = RunStatus.completed → r.completedAt.isSome = true) :
    KEEP_RUNS = 3 ∧
    (∀ r ∈ runs, r ∈ (legacyCleanupOldRuns runs projects).1 ↔
       r ∉ runsDeletedByCleanup runs) ∧
    (∀ d ∈ runsDeletedByCleanup runs, d.status = RunStatus.completed ∧
       ∀ k ∈ runsKeptByCleanup runs, ∃ td tk, d.completedAt = some td ∧
         k.completedAt = some tk ∧ td < tk) ∧
    (∀ p ∈ projects, p ∈ (legacyCleanupOldRuns runs projects).2 ↔
       ¬∃ rid, p.lastConfirmedRunId = some rid ∧
         rid ∈ (runsDeletedByCleanup runs).map (fun r => r.id)) ∧
    (∀ p ∈ projects,
       (∃ k ∈ runsKeptByCleanup runs, p.lastConfirmedRunId = some k.id) →
       p ∈ (legacyCleanupOldRuns runs projects).2) := by
  have hperm := completedDesc_perm runs
  have hsortedIds : ((completedDesc runs).map (fun r => r.id)).Nodup :=
    (hperm.map _).nodup_iff.mpr (((List.filter_sublist runs).map _).nodup hids)
  have htsSorted : ((completedDesc runs).map (fun r => r.completedAt)).Nodup :=
    (hperm.map _).nodup_iff.mpr hts
  have hsplit : runsKeptByCleanup runs ++ runsDeletedByCleanup runs = completedDesc runs :=
    List.take_append_drop _ _
  have hmemDel : ∀ d ∈ runsDeletedByCleanup runs,
      d ∈ runs ∧ d.status = RunStatus.completed := by
    intro d hd
    exact mem_completedDesc.mp (List.mem_of_mem_drop hd)
  have hmemKept : ∀ k ∈ runsKeptByCleanup runs,
      k ∈ runs ∧ k.status = RunStatus.completed := by
    intro k hk
    exact mem_completedDesc.mp (List.mem_of_mem_take hk)
  have hdisjIds : ∀ x, x ∈ (runsKeptByCleanup runs).map (fun r => r.id) →
      x ∈ (runsDeletedByCleanup runs).map (fun r => r.id) → False := by
    have hn : (((runsKeptByCleanup runs) ++ (runsDeletedByCleanup runs)).map
        (fun r => r.id)).Nodup := by
      rw [hsplit]; exact hsortedIds
    rw [List.map_append] at hn
    exact fun x h1 h2 => List.disjoint_of_nodup_append hn h1 h2
  have hIdIffDel : ∀ r ∈ runs,
      (r.id ∈ (runsDeletedByCleanup runs).map (fun x => x.id) ↔
        r ∈ runsDeletedByCleanup runs) := by
    intro r hr
    constructor
    · intro hmem
      rcases List.mem_map.mp hmem with ⟨d, hdmem, hdid⟩
      have heq : d = r := List.inj_on_of_nodup_map hids (hmemDel d hdmem).1 hr hdid
      rwa [heq] at hdmem
    · intro h
      exact List.mem_map.mpr ⟨r, h, rfl⟩
  have part2 : ∀ d ∈ runsDeletedByCleanup runs, d.status = RunStatus.completed ∧
      ∀ k ∈ runsKeptByCleanup runs, ∃ td tk, d.completedAt = some td ∧
        k.completedAt = some tk ∧ td < tk := by
    have hpw := completedDesc_pairwise runs
    rw [← hsplit] at hpw
    have hKD := (List.pairwise_append.mp hpw).2.2
    have hdisjTs : ∀ k ∈ runsKeptByCleanup runs, ∀ d ∈ runsDeletedByCleanup runs,
        k.completedAt ≠ d.completedAt := by
      have hn : (((runsKeptByCleanup runs) ++ (runsDeletedByCleanup runs)).map
          (fun r => r.completedAt)).Nodup := by
        rw [hsplit]; exact htsSorted
      rw [List.map_append] at hn
      intro k hk d hd heq
      exact List.disjoint_of_nodup_append hn (List.mem_map.mpr ⟨k, hk, rfl⟩)
        (heq ▸ List.mem_map.mpr ⟨d, hd, rfl⟩)
    intro d hd
    obtain ⟨hdruns, hdstat⟩ := hmemDel d hd
    refine ⟨hdstat, ?_⟩
    intro k hk
    obtain ⟨hkruns, hkstat⟩ := hmemKept k hk
    obtain ⟨td, htd⟩ := Option.isSome_iff_exists.mp (hsome d hdruns hdstat)
    obtain ⟨tk, htk⟩ := Option.isSome_iff_exists.mp (hsome k hkruns hkstat)
    have hle := hKD k hk d hd
    rw [htd, htk] at hle
    simp only [completedDescLE, decide_eq_true_eq] at hle
    have hne := hdisjTs k hk d hd
    rw [htd, htk] at hne
    have htdne : tk ≠ td := by
      intro h
      exact hne (by rw [h])
    exact ⟨td, tk, htd, htk, by omega⟩
  by_cases hdelnil : runsDeletedByCleanup runs = []
  · have hlegacy : legacyCleanupOldRuns runs projects = (runs, projects) := by
      have hcond : (completedDesc runs).drop KEEP_RUNS = [] := hdelnil
      simp only [legacyCleanupOldRuns]
      rw [if_pos hcond]
    refine ⟨rfl, ?_, part2, ?_, ?_⟩
    · intro r hr
      rw [hlegacy, hdelnil]
      simp [hr]
    · intro p hp
      rw [hlegacy, hdelnil]
      simp [hp]
    · intro p hp _
      rw [hlegacy]
      exact hp
  · have hcond : ¬((completedDesc runs).drop KEEP_RUNS = []) := hdelnil
    have hlegacy : legacyCleanupOldRuns runs projects =
        (runs.filter (fun r =>
           decide (r.id ∉ ((completedDesc runs).drop KEEP_RUNS).map (fun x => x.id))),
         projects.filter (fun p =>
           match p.lastConfirmedRunId with
           | none => true
           | some rid =>
             decide (rid ∉ ((completedDesc runs).drop KEEP_RUNS).map (fun x => x.id)))) := by
      simp only [legacyCleanupOldRuns]
      rw [if_neg hcond]
    refine ⟨rfl, ?_, part2, ?_, ?_⟩
    · intro r hr
      rw [hlegacy]
      simp only [List.mem_filter, decide_eq_true_eq]
      constructor
      · intro ⟨_, hnotin⟩
        intro hrdel
        exact hnotin ((hIdIffDel r hr).mpr hrdel)
      · intro hnotdel
        refine ⟨hr, ?_⟩
        intro hin
        exact hnotdel ((hIdIffDel r hr).mp hin)
    · intro p hp
      rw [hlegacy]
      simp only [List.mem_filter]
      cases hcase : p.lastConfirmedRunId with
      | none => simp [hp, hcase, runsDeletedByCleanup]
      | some rid => simp [hp, hcase, runsDeletedByCleanup]
    · intro p hp hkeptconf
      rcases hkeptconf with ⟨k, hk, hpk⟩
      rw [hlegacy]
      apply List.mem_filter.mpr
      refine ⟨hp, ?_⟩
      rw [hpk]
      simp only [decide_eq_true_eq]
      intro hin
      exact hdisjIds k.id (List.mem_map.mpr ⟨k, hk, rfl⟩) hin

/-- C2, witness: four completed runs (ids 1–4, completed at 10 < 20 < 30 <
40); run 1 is deleted, and the project last confirmed by run 4 survives
although it was first seen by run 1. -/
theorem c2_retention_cleanup_witness :
    (mkCompletedRun 1 10 ∈ (legacyCleanupOldRuns sampleRuns sampleProjects).1 ↔
      mkCompletedRun 1 10 ∉ runsDeletedByCleanup sampleRuns) ∧
    (∀ p ∈ sampleProjects,
       (∃ k ∈ runsKeptByCleanup sampleRuns, p.lastConfirmedRunId = some k.id) →
       p ∈ (legacyCleanupOldRuns sampleRuns sampleProjects).2) := by
  have h := c2_retention_cleanup sampleRuns sampleProjects
    (by decide) (by decide) (by decide)
  exact ⟨h.2.1 (mkCompletedRun 1 10) (by decide), h.2.2.2.2⟩

end Indexer
